import Mathlib

/-!
Shallow embedding of pyLBM's `geometry.py` and `simulation.py`.

Numeric values are modelled by `ℚ` (exact arithmetic in place of IEEE
floats), dictionaries by explicit structures with `Option` fields for
optional keys, and `sys.exit` error paths by `Except String`.  Operations
implemented in modules that are not part of the embedded sources
(`scheme.py`, `stencil.py`, `domain.py`, `boundary.py`, `elements.py`) are
either taken as abstract parameters or carry a doc comment starting with
`Modelled from the spec:`.
-/

namespace PyLBM

/-! ## Geometry (`geometry.py`) -/

/-- The `label` entry of the box dictionary: either a single integer or a
list of integers (`geometry.py`, lines 128-137). -/
inductive LabelSpec where
  | int : ℤ → LabelSpec
  | list : List ℤ → LabelSpec
deriving DecidableEq

/-- The `box` dictionary: the `x` bounds, optional `y` and `z` bounds and an
optional `label` entry. -/
structure BoxDico where
  x : Option (ℚ × ℚ)
  y : Option (ℚ × ℚ)
  z : Option (ℚ × ℚ)
  label : Option LabelSpec
deriving DecidableEq

/-- Modelled from the spec: the element classes live in `elements.py`, which
is not among the embedded sources.  `geometry.py` only reads an element's
`label` attribute (line 222) and its `isfluid` flag, so an element is
modelled by exactly these two fields. -/
structure Element where
  label : List ℤ
  isfluid : Bool
deriving DecidableEq

/-- The dictionary handed to `Geometry.__init__`: an optional `box` entry and
the (possibly empty) list of `elements`. -/
structure GDico where
  box : Option BoxDico
  elements : List Element
deriving DecidableEq

/-- Embedding of `get_box` (`geometry.py`, lines 23-58): the dimension is 1
with only `x`, bumped to 2 when `y` is present, and to 3 when `z` is present
in addition to `y`; the `z` test is nested inside the `y` branch.  A missing
`box` or `x` entry is the `sys.exit` path. -/
def get_box (d : GDico) : Except String (ℕ × List (ℚ × ℚ)) :=
  match d.box with
  | none => .error "box key not found in the geometry definition"
  | some box =>
    match box.x with
    | none => .error "x interval not found in the box definition of the geometry"
    | some bx =>
      match box.y with
      | none => .ok (1, [bx])
      | some yb =>
        match box.z with
        | none => .ok (2, [bx, yb])
        | some zb => .ok (3, [bx, yb, zb])

/-- Embedding of the per-dimension bounds update of `Geometry.__init__`
(`geometry.py`, lines 107 and 112-113): first `t = (max - min)/split` is
computed, then the upper bound is replaced using the still unmodified lower
bound, and only afterwards the lower bound is replaced. -/
def splitBounds1 (b : ℚ × ℚ) (split c : ℕ) : ℚ × ℚ :=
  let t : ℚ := (b.2 - b.1) / (split : ℚ)
  let b2 : ℚ × ℚ := (b.1, b.1 + t * ((c : ℚ) + 1))
  (b2.1 + t * (c : ℚ), b2.2)

/-- The vectorised bounds update: line 112-113 act on every dimension, with
`split` and `coords` the per-dimension process-grid size and cartesian
coordinate obtained from the MPI library. -/
def splitBounds (bounds : List (ℚ × ℚ)) (split coords : List ℕ) : List (ℚ × ℚ) :=
  List.zipWith (fun b sc => splitBounds1 b sc.1 sc.2) bounds (split.zip coords)

/-- Embedding of lines 128-137 of `geometry.py`: a missing `label` entry
defaults to the integer 0; an integer is replicated to all `2*dim` edges; a
list is copied as given (its length is not checked). -/
def box_label_of (dim : ℕ) (lab : Option LabelSpec) : List ℤ :=
  match lab with
  | none => List.replicate (2 * dim) 0
  | some (.int n) => List.replicate (2 * dim) n
  | some (.list l) => l

/-- The `label` entry of the box, when the box itself is present. -/
def boxLabelField (d : GDico) : Option LabelSpec :=
  match d.box with
  | none => none
  | some b => b.label

/-- The attributes of a constructed `Geometry` object that the embedded
claims mention. -/
structure Geometry where
  dim : ℕ
  bounds : List (ℚ × ℚ)
  box_label : List ℤ
  list_elem : List Element
deriving DecidableEq

/-- Embedding of `Geometry.__init__` (`geometry.py`, lines 96-143): `get_box`,
the MPI bounds split, the box label defaulting and the element list.  The
process-grid split and cartesian coordinates are parameters standing for the
values returned by `mpi.Compute_dims` and `comm.Get_coords`; a single process
yields `split = [1, ...]` and `coords = [0, ...]`.  No validation of the box
extent is performed anywhere in the constructor. -/
def geometryInit (split coords : List ℕ) (d : GDico) : Except String Geometry :=
  match get_box d with
  | .error e => .error e
  | .ok (dim, bounds0) =>
    .ok { dim := dim
          bounds := splitBounds bounds0 split coords
          box_label := box_label_of dim (boxLabelField d)
          list_elem := d.elements }

/-- Embedding of `np.union1d`: the sorted, duplicate-free union of two
integer lists. -/
def union1d (a b : List ℤ) : List ℤ :=
  (List.mergeSort (a ++ b) (fun x y => decide (x ≤ y))).dedup

/-- Embedding of `Geometry.list_of_labels` (`geometry.py`, lines 216-225):
start from the box labels as given and fold `np.union1d` with each element's
labels. -/
def list_of_labels (g : Geometry) : List ℤ :=
  g.list_elem.foldl (fun L e => union1d L e.label) g.box_label

/-! ## Simulation (`simulation.py`), abstract model

The `Scheme`, `Domain` and `Boundary` objects are built by modules that are
not among the embedded sources; `simulation.py` only calls their methods.
They are therefore abstract parameters: a `SchemeOps` record of opaque buffer
transformations together with the scalar attributes `simulation.py` reads
(`dim`, `la`, `nv_on_beg`, `stencil.nv_ptr[-1]`), and a `DomainData` record
with `dim`, `dx` and the grid sizes `Na`.  Each embedded method additionally
returns the list of operations it performed, mirroring the statement order
of the Python code. -/

/-- Operations and attributes of the scheme object used by `simulation.py`.
`set_boundary_conditions` reads both buffers and rewrites the distribution
buffer; `onetimestep` is the fused kernel of the spatial-index-fastest
layout, reading the moment buffer and the source distribution buffer and
returning the new moment buffer and the newly written distribution buffer. -/
structure SchemeOps (β : Type) where
  dim : ℕ
  la : ℚ
  nv_on_beg : Bool
  nvTot : ℕ
  set_boundary_conditions : β → β → β
  transport : β → β
  f2m : β → β
  relaxation : β → β
  m2f : β → β
  equilibrium : β → β
  onetimestep : β → β → β × β

/-- Attributes of the domain object used by `simulation.py`. -/
structure DomainData where
  dim : ℕ
  dx : ℚ
  Na : List ℕ

/-- The `inittype` entry of the simulation dictionary. -/
inductive InitType where
  | moments
  | distributions
deriving DecidableEq

/-- The entries of the simulation dictionary used by `initialization`: the
`inittype` switch and the accumulated effect of the per-moment initializer
loop (lines 164-179 write rows of `_m` or of `_F`, depending on `inittype`;
the loop as a whole is one buffer transformation). -/
structure SimDico (β : Type) where
  inittype : InitType
  fill : β → β

/-- Observable operations of the embedded methods, in statement order. -/
inductive Ev where
  | checkDim
  | allocM
  | allocF
  | mkBoundary
  | fillM
  | fillF
  | equilibrium
  | m2f
  | f2m
  | setBC
  | transport
  | relaxation
  | copyFold
  | fusedStep
  | swapBuffers
deriving DecidableEq

/-- The attributes of a `Simulation` object that the embedded claims
mention.  `mshape` and `Fshape` record the allocation shapes of `_m` and
`_F` (lines 92-100); `Fold` is the secondary buffer of the
spatial-index-fastest layout. -/
structure SimState (β : Type) where
  t : ℚ
  nt : ℕ
  dt : ℚ
  dim : ℕ
  nv_on_beg : Bool
  mshape : List ℕ
  Fshape : List ℕ
  m : β
  F : β
  Fold : β

/-- Embedding of `Simulation.initialization` (`simulation.py`, lines
154-188): with `inittype == 'moments'` the initializers fill `_m`, then
`equilibrium` rewrites `_m` and `m2f` computes `_F` from it; otherwise the
initializers fill `_F` and `f2m` computes `_m` from it.  In the
spatial-index-fastest layout `_Fold` is finally set to a copy of `_F`
(lines 187-188). -/
def initialization {β : Type} (ops : SchemeOps β) (d : SimDico β) (s : SimState β) :
    SimState β × List Ev :=
  match d.inittype with
  | .moments =>
    let m1 := d.fill s.m
    let m2 := ops.equilibrium m1
    let F1 := ops.m2f m2
    let s1 := { s with m := m2, F := F1 }
    let s2 := if s.nv_on_beg then s1 else { s1 with Fold := s1.F }
    (s2, [.fillM, .equilibrium, .m2f])
  | .distributions =>
    let F1 := d.fill s.F
    let m1 := ops.f2m F1
    let s1 := { s with F := F1, m := m1 }
    let s2 := if s.nv_on_beg then s1 else { s1 with Fold := s1.F }
    (s2, [.fillF, .f2m])

/-- Embedding of `Simulation.__init__` (`simulation.py`, lines 53-106):
`t`, `nt` and `dt` are set (lines 78-80), then the dimension check runs
(lines 81-85, `sys.exit` on mismatch), and only afterwards are `_m` and `_F`
allocated with the layout-dependent shape `msize` (lines 92-100), the
boundary object built and `initialization` run.  `np.empty` leaves the
buffer contents arbitrary, so the fresh buffer values are parameters. -/
def simInit {β : Type} (ops : SchemeOps β) (dom : DomainData) (d : SimDico β)
    (m0 F0 Fold0 : β) : Except String (SimState β) × List Ev :=
  let dt0 : ℚ := dom.dx / ops.la
  if dom.dim ≠ ops.dim then
    (.error "the dimension of the domain and of the scheme are not the same",
     [.checkDim])
  else
    let msize : List ℕ :=
      if ops.nv_on_beg then ops.nvTot :: dom.Na.reverse
      else dom.Na.reverse ++ [ops.nvTot]
    let s0 : SimState β :=
      { t := 0, nt := 0, dt := dt0, dim := dom.dim, nv_on_beg := ops.nv_on_beg
        mshape := msize, Fshape := msize, m := m0, F := F0, Fold := Fold0 }
    let r := initialization ops d s0
    (.ok r.1, [.checkDim, .allocM, .allocF, .mkBoundary] ++ r.2)

/-- Embedding of `Simulation.one_time_step` (`simulation.py`, lines
190-206): `set_boundary_conditions` rewrites `_F` first; in the
moment-index-fastest layout `transport`, `f2m`, `relaxation` and `m2f`
follow in that order; in the spatial-index-fastest layout `_F` is copied
into `_Fold`, the fused kernel writes `_m` and the secondary buffer, and
the two buffers are swapped.  Finally `t` grows by `dt` and `nt` by 1. -/
def one_time_step {β : Type} (ops : SchemeOps β) (s : SimState β) :
    SimState β × List Ev :=
  let F1 := ops.set_boundary_conditions s.F s.m
  if s.nv_on_beg then
    let F2 := ops.transport F1
    let m1 := ops.f2m F2
    let m2 := ops.relaxation m1
    let F3 := ops.m2f m2
    ({ s with F := F3, m := m2, t := s.t + s.dt, nt := s.nt + 1 },
     [.setBC, .transport, .f2m, .relaxation, .m2f])
  else
    let Fold1 := F1
    let r := ops.onetimestep s.m F1
    ({ s with m := r.1, F := r.2, Fold := Fold1, t := s.t + s.dt, nt := s.nt + 1 },
     [.setBC, .copyFold, .fusedStep, .swapBuffers])

/-- Iterated `one_time_step`, the external driver loop. -/
def advance {β : Type} (ops : SchemeOps β) : ℕ → SimState β → SimState β
  | 0, s => s
  | n + 1, s => advance ops n (one_time_step ops s).1

/-! ## Concrete one-step kernels in the two memory layouts

`Scheme.transport`, `f2m`, `relaxation`, `m2f` and the fused kernel
`Scheme.onetimestep` are generated by modules that are not among the
embedded sources; the definitions below model them from the spec
(§4.3: transport is a gather along each velocity restricted to in-range
sources, `f2m`/`m2f` multiply by the change-of-basis matrix and its
inverse per spatial node, relaxation blends each moment toward its
equilibrium, and the fused kernel performs the same four stages in one
pass over the nodes). -/

/-- A buffer in the moment-index-fastest layout (`nv_on_beg = True`):
velocity-slot index first, then the spatial index. -/
abbrev Mom (NV NX : ℕ) := Fin NV → Fin NX → ℚ

/-- A buffer in the spatial-index-fastest layout (`nv_on_beg = False`):
spatial index first, then the velocity-slot index. -/
abbrev Spa (NV NX : ℕ) := Fin NX → Fin NV → ℚ

/-- The layout transposition relating the two storages. -/
def transposeL {NV NX : ℕ} (A : Mom NV NX) : Spa NV NX :=
  fun x v => A v x

/-- The inverse layout transposition. -/
def transposeR {NV NX : ℕ} (G : Spa NV NX) : Mom NV NX :=
  fun v x => G x v

/-- Modelled from the spec: the numeric data the kernel compiler derives
from a scheme descriptor — change-of-basis matrix `M`, its inverse, the
relaxation rates `s`, the equilibrium as a function of a node's moments and
the integer velocity displacements. -/
structure SchemeData (NV : ℕ) where
  M : Fin NV → Fin NV → ℚ
  Minv : Fin NV → Fin NV → ℚ
  s : Fin NV → ℚ
  eq : (Fin NV → ℚ) → Fin NV → ℚ
  v : Fin NV → ℤ

/-- The transport source index for node `x` and displacement `vj`: `x - vj`
when it lies inside the grid, `none` otherwise. -/
def gatherIdx (NX : ℕ) (x : Fin NX) (vj : ℤ) : Option (Fin NX) :=
  let src : ℤ := (x : ℤ) - vj
  if h : 0 ≤ src ∧ src < (NX : ℤ) then some ⟨src.toNat, by omega⟩ else none

/-- Modelled from the spec: `Scheme.transport` in the moment-index-fastest
layout — a gather; out-of-range sources leave the destination value in
place, to be overwritten by the next boundary pass. -/
def transportM {NV NX : ℕ} (sd : SchemeData NV) (F : Mom NV NX) : Mom NV NX :=
  fun j x =>
    match gatherIdx NX x (sd.v j) with
    | some src => F j src
    | none => F j x

/-- Modelled from the spec: `Scheme.f2m`, `m = M · F` per spatial node. -/
def f2mM {NV NX : ℕ} (sd : SchemeData NV) (F : Mom NV NX) : Mom NV NX :=
  fun i x => ∑ j, sd.M i j * F j x

/-- Modelled from the spec: `Scheme.relaxation`,
`m_j ← m_j + s_j·(equilibrium_j − m_j)` with the equilibrium evaluated on
the pre-relaxation moments of the node. -/
def relaxM {NV NX : ℕ} (sd : SchemeData NV) (m : Mom NV NX) : Mom NV NX :=
  fun j x => m j x + sd.s j * (sd.eq (fun i => m i x) j - m j x)

/-- Modelled from the spec: `Scheme.m2f`, `F = M⁻¹ · m` per spatial node. -/
def m2fM {NV NX : ℕ} (sd : SchemeData NV) (m : Mom NV NX) : Mom NV NX :=
  fun i x => ∑ j, sd.Minv i j * m j x

/-- The distribution buffer after the four-stage moment-index-fastest step
(`simulation.py`, lines 194-197, after boundary conditions). -/
def momStepF {NV NX : ℕ} (sd : SchemeData NV) (F : Mom NV NX) : Mom NV NX :=
  m2fM sd (relaxM sd (f2mM sd (transportM sd F)))

/-- The moment buffer after the four-stage moment-index-fastest step. -/
def momStepM {NV NX : ℕ} (sd : SchemeData NV) (F : Mom NV NX) : Mom NV NX :=
  relaxM sd (f2mM sd (transportM sd F))

/-- One node of the fused kernel: gather all velocity slots, change basis,
relax, change basis back; returns the node's post-relaxation moments and
new distribution values. -/
def fusedNode {NV NX : ℕ} (sd : SchemeData NV) (src : Spa NV NX) (x : Fin NX) :
    (Fin NV → ℚ) × (Fin NV → ℚ) :=
  let fstar : Fin NV → ℚ := fun j =>
    match gatherIdx NX x (sd.v j) with
    | some s => src s j
    | none => src x j
  let mloc : Fin NV → ℚ := fun i => ∑ j, sd.M i j * fstar j
  let mrel : Fin NV → ℚ := fun j => mloc j + sd.s j * (sd.eq mloc j - mloc j)
  let fout : Fin NV → ℚ := fun i => ∑ j, sd.Minv i j * mrel j
  (mrel, fout)

/-- Modelled from the spec: the fused kernel `Scheme.onetimestep` of the
spatial-index-fastest layout — one pass over the nodes, reading only the
source buffer, producing the new moment and distribution buffers. -/
def onetimestepS {NV NX : ℕ} (sd : SchemeData NV) (src : Spa NV NX) :
    Spa NV NX × Spa NV NX :=
  (fun x i => (fusedNode sd src x).1 i, fun x i => (fusedNode sd src x).2 i)

/-- Modelled from the spec: `set_boundary_conditions` receives the layout
flag and acts on the spatial-index-fastest buffers exactly as the
moment-index-fastest boundary pass acts on the transposed buffers. -/
def bcSpa {NV NX : ℕ} (bcM : Mom NV NX → Mom NV NX → Mom NV NX)
    (F m : Spa NV NX) : Spa NV NX :=
  transposeL (bcM (transposeR F) (transposeR m))

/-- The full moment-index-fastest step of `one_time_step` on concrete
buffers: boundary pass, then the four stages; returns the new
distribution and moment buffers. -/
def one_time_step_mom {NV NX : ℕ} (sd : SchemeData NV)
    (bcM : Mom NV NX → Mom NV NX → Mom NV NX) (F m : Mom NV NX) :
    Mom NV NX × Mom NV NX :=
  let F1 := bcM F m
  (momStepF sd F1, momStepM sd F1)

/-- The spatial-index-fastest state of `Simulation`: two physical
distribution buffers, the moment buffer, and which physical buffer the
name `_F` currently denotes (`_Fold` denotes the other one). -/
structure SimSpa (NV NX : ℕ) where
  b0 : Spa NV NX
  b1 : Spa NV NX
  mS : Spa NV NX
  fIsZero : Bool

/-- The buffer currently named `_F`. -/
def Fbuf {NV NX : ℕ} (st : SimSpa NV NX) : Spa NV NX :=
  if st.fIsZero then st.b0 else st.b1

/-- The buffer currently named `_Fold`. -/
def Foldbuf {NV NX : ℕ} (st : SimSpa NV NX) : Spa NV NX :=
  if st.fIsZero then st.b1 else st.b0

/-- In-place write into the buffer named `_F`. -/
def writeF {NV NX : ℕ} (st : SimSpa NV NX) (G : Spa NV NX) : SimSpa NV NX :=
  if st.fIsZero then { st with b0 := G } else { st with b1 := G }

/-- In-place write into the buffer named `_Fold`. -/
def writeFold {NV NX : ℕ} (st : SimSpa NV NX) (G : Spa NV NX) : SimSpa NV NX :=
  if st.fIsZero then { st with b1 := G } else { st with b0 := G }

/-- Embedding of the spatial-index-fastest branch of
`Simulation.one_time_step` (`simulation.py`, lines 191 and 198-203):
boundary pass into `_F`, copy `_F` into `_Fold`, fused kernel writing `_m`
and the secondary buffer while reading only the source values, then the
pointer swap making `_F` name the newly written buffer. -/
def one_time_step_spa {NV NX : ℕ} (sd : SchemeData NV)
    (bcM : Mom NV NX → Mom NV NX → Mom NV NX) (st : SimSpa NV NX) :
    SimSpa NV NX :=
  let st1 := writeF st (bcSpa bcM (Fbuf st) st.mS)
  let st2 := writeFold st1 (Fbuf st1)
  let r := onetimestepS sd (Fbuf st2)
  let st3 : SimSpa NV NX := { writeFold st2 r.2 with mS := r.1 }
  { st3 with fIsZero := !st3.fIsZero }

/-! ## The `m` / `F` item accessors (`simulation.py`, lines 108-146) -/

/-- Modelled from the spec: `stencil.nv_ptr` comes from `stencil.py`, which
is not among the embedded sources; the spec fixes it as the prefix sums of
the per-sub-scheme velocity counts `nv`, with `nv_ptr[k+1] - nv_ptr[k] =
nv[k]`. -/
def nv_ptr (nv : List ℕ) : List ℕ :=
  List.scanl (· + ·) 0 nv

/-- The combined row index `nv_ptr[i] + j` used by the accessors. -/
def rowIndex (nv : List ℕ) (i j : ℕ) : ℕ :=
  (nv_ptr nv).getD i 0 + j

/-- Embedding of the integer-index branch of the `m` getter (lines 122-123;
identically for `F`, lines 136-137): the row of the packed buffer at the
combined index `nv_ptr[i] + j`.  The packed buffer is a map from combined
row index to the row over the spatial grid. -/
def mGetItem {α : Type} (nv : List ℕ) (buf : ℕ → α) (i j : ℕ) : α :=
  buf (rowIndex nv i j)

/-- A Python slice object with optional start and stop. -/
structure PySlice where
  start : Option ℕ
  stop : Option ℕ
deriving DecidableEq

/-- Embedding of the slice branch of the `m` getter (`simulation.py`, lines
110-117): a missing start defaults to 0, a missing stop defaults to
`nv[i] - 1`, and the accessor returns the rows of the Python slice
`slice(nv_ptr[i] + jstart, nv_ptr[i] + jstop)`, whose stop is exclusive. -/
def sliceRows (nv : List ℕ) (i : ℕ) (j : PySlice) : List ℕ :=
  let jstart := j.start.getD 0
  let jstop := j.stop.getD (nv.getD i 0 - 1)
  let lo := (nv_ptr nv).getD i 0 + jstart
  let hi := (nv_ptr nv).getD i 0 + jstop
  List.range' lo (hi - lo)

/-- The slice branch of the `m` getter: the listed rows of the packed
buffer. -/
def mGetSlice {α : Type} (nv : List ℕ) (buf : ℕ → α) (i : ℕ) (j : PySlice) :
    List α :=
  (sliceRows nv i j).map buf

/-! ## Helper lemmas -/

theorem mem_union1d {x : ℤ} {a b : List ℤ} :
    x ∈ union1d a b ↔ x ∈ a ∨ x ∈ b := by
  unfold union1d
  rw [List.mem_dedup, (List.mergeSort_perm (a ++ b) _).mem_iff]
  exact List.mem_append

theorem nodup_union1d (a b : List ℤ) : (union1d a b).Nodup :=
  List.nodup_dedup _

theorem nodup_foldl_union1d (els : List Element) (acc : List ℤ)
    (h : acc.Nodup) :
    (els.foldl (fun L e => union1d L e.label) acc).Nodup := by
  induction els generalizing acc with
  | nil => exact h
  | cons e rest ih => exact ih _ (nodup_union1d _ _)

theorem mem_foldl_union1d (els : List Element) (acc : List ℤ) (x : ℤ) :
    x ∈ els.foldl (fun L e => union1d L e.label) acc ↔
      x ∈ acc ∨ ∃ e ∈ els, x ∈ e.label := by
  induction els generalizing acc with
  | nil => simp
  | cons e rest ih =>
    simp only [List.foldl_cons, ih, mem_union1d, List.mem_cons]
    constructor
    · rintro ((hx | hx) | ⟨e2, he2, hx⟩)
      · exact Or.inl hx
      · exact Or.inr ⟨e, Or.inl rfl, hx⟩
      · exact Or.inr ⟨e2, Or.inr he2, hx⟩
    · rintro (hx | ⟨e2, (rfl | he2), hx⟩)
      · exact Or.inl (Or.inl hx)
      · exact Or.inl (Or.inr hx)
      · exact Or.inr ⟨e2, he2, hx⟩

theorem iUnion_Icc_pieces (a t : ℚ) (ht : 0 ≤ t) :
    ∀ n : ℕ, 0 < n →
      (⋃ k ∈ Finset.range n, Set.Icc (a + t * (k : ℚ)) (a + t * ((k : ℚ) + 1)))
        = Set.Icc a (a + t * (n : ℚ)) := by
  intro n
  induction n with
  | zero => omega
  | succ m ih =>
    intro _
    rcases Nat.eq_zero_or_pos m with hm | hm
    · subst hm
      simp
    · rw [Finset.range_succ, Finset.set_biUnion_insert, ih hm, Set.union_comm]
      have h1 : a ≤ a + t * (m : ℚ) := by
        have : 0 ≤ t * (m : ℚ) := mul_nonneg ht (by positivity)
        linarith
      have h2 : a + t * (m : ℚ) ≤ a + t * ((m : ℚ) + 1) := by
        have : t * (m : ℚ) ≤ t * ((m : ℚ) + 1) :=
          mul_le_mul_of_nonneg_left (by linarith) ht
        linarith
      rw [Set.Icc_union_Icc_eq_Icc h1 h2]
      push_cast
      ring_nf

theorem initialization_preserves {β : Type} (ops : SchemeOps β) (d : SimDico β)
    (s : SimState β) :
    (initialization ops d s).1.t = s.t ∧ (initialization ops d s).1.nt = s.nt
    ∧ (initialization ops d s).1.dt = s.dt
    ∧ (initialization ops d s).1.mshape = s.mshape
    ∧ (initialization ops d s).1.Fshape = s.Fshape := by
  cases hd : d.inittype <;> simp only [initialization, hd] <;>
    split <;> simp

theorem one_time_step_clock {β : Type} (ops : SchemeOps β) (s : SimState β) :
    (one_time_step ops s).1.t = s.t + s.dt
    ∧ (one_time_step ops s).1.nt = s.nt + 1
    ∧ (one_time_step ops s).1.dt = s.dt := by
  unfold one_time_step
  split <;> simp

theorem advance_clock {β : Type} (ops : SchemeOps β) (n : ℕ) (s : SimState β) :
    (advance ops n s).t = s.t + (n : ℚ) * s.dt
    ∧ (advance ops n s).nt = s.nt + n
    ∧ (advance ops n s).dt = s.dt := by
  induction n generalizing s with
  | zero => simp [advance]
  | succ m ih =>
    have hs := one_time_step_clock ops s
    have h := ih (one_time_step ops s).1
    refine ⟨?_, ?_, ?_⟩
    · rw [show advance ops (m + 1) s = advance ops m (one_time_step ops s).1 from rfl,
        h.1, hs.1, hs.2.2]
      push_cast
      ring
    · rw [show advance ops (m + 1) s = advance ops m (one_time_step ops s).1 from rfl,
        h.2.1, hs.2.1]
      omega
    · rw [show advance ops (m + 1) s = advance ops m (one_time_step ops s).1 from rfl,
        h.2.2, hs.2.2]

theorem simInit_ok {β : Type} (ops : SchemeOps β) (dom : DomainData) (d : SimDico β)
    (m0 F0 Fold0 : β) (s1 : SimState β) (evs : List Ev)
    (h : simInit ops dom d m0 F0 Fold0 = (.ok s1, evs)) :
    dom.dim = ops.dim ∧
    s1 = (initialization ops d
      { t := 0, nt := 0, dt := dom.dx / ops.la, dim := dom.dim
        nv_on_beg := ops.nv_on_beg
        mshape := if ops.nv_on_beg then ops.nvTot :: dom.Na.reverse
                  else dom.Na.reverse ++ [ops.nvTot]
        Fshape := if ops.nv_on_beg then ops.nvTot :: dom.Na.reverse
                  else dom.Na.reverse ++ [ops.nvTot]
        m := m0, F := F0, Fold := Fold0 }).1 := by
  by_cases hdim : dom.dim ≠ ops.dim
  · simp [simInit, hdim] at h
  · push_neg at hdim
    refine ⟨hdim, ?_⟩
    simp only [simInit, hdim, ne_eq, not_true_eq_false, if_false, Prod.mk.injEq] at h
    rw [hdim]
    exact (Except.ok.inj h.1).symm

theorem spa_step_structure {NV NX : ℕ} (sd : SchemeData NV)
    (bcM : Mom NV NX → Mom NV NX → Mom NV NX) (st : SimSpa NV NX) :
    Fbuf (one_time_step_spa sd bcM st)
        = (onetimestepS sd (bcSpa bcM (Fbuf st) st.mS)).2
    ∧ (one_time_step_spa sd bcM st).mS
        = (onetimestepS sd (bcSpa bcM (Fbuf st) st.mS)).1
    ∧ Foldbuf (one_time_step_spa sd bcM st) = bcSpa bcM (Fbuf st) st.mS
    ∧ (one_time_step_spa sd bcM st).fIsZero = !st.fIsZero := by
  cases st with
  | mk b0 b1 mS f =>
    cases f <;> exact ⟨rfl, rfl, rfl, rfl⟩

theorem onetimestepS_transposeL {NV NX : ℕ} (sd : SchemeData NV) (F : Mom NV NX) :
    onetimestepS sd (transposeL F)
      = (transposeL (momStepM sd F), transposeL (momStepF sd F)) :=
  rfl

theorem transposeR_transposeL {NV NX : ℕ} (A : Mom NV NX) :
    transposeR (transposeL A) = A :=
  rfl

/-! ## Claim theorems -/

/-- A zero-extent box in the single dimension, single process. -/
def ddZero : GDico := ⟨some ⟨some (0, 0), none, none, none⟩, []⟩

/-- C6 counterexample: constructing the geometry from the degenerate box
`x = [0, 0]` on a single process raises no error — `Geometry.__init__`
succeeds and returns zero-width bounds, refuting the claim that a
zero-extent box is a fatal configuration error at construction. -/
theorem claim6_counterexample :
    geometryInit [1] [0] ddZero
      = .ok { dim := 1, bounds := [(0, 0)], box_label := [0, 0],
              list_elem := [] } := by
  simp [geometryInit, ddZero, get_box, splitBounds, boxLabelField, box_label_of]
  norm_num [splitBounds1]

/-- C6 (amended): constructing the geometry from a box with zero extent in
some dimension is not detected: `Geometry.__init__` performs no validation
of the box extent, succeeds, and returns bounds of zero width in that
dimension. -/
theorem claim6_degenerate_box_accepted (a : ℚ) (split c : ℕ)
    (lab : Option LabelSpec) (els : List Element) :
    geometryInit [split] [c] ⟨some ⟨some (a, a), none, none, lab⟩, els⟩
      = .ok { dim := 1, bounds := [(a, a)], box_label := box_label_of 1 lab,
              list_elem := els } := by
  have hb : splitBounds1 (a, a) split c = (a, a) := by
    unfold splitBounds1
    norm_num
  simp [geometryInit, get_box, splitBounds, boxLabelField, hb]

/-- C8: under distributed execution, the bounds update of
`Geometry.__init__` replaces the global bounds `[min, max]` in each
dimension by the local sub-box `[min + t*c, min + t*(c+1)]` with
`t = (max - min)/split` and `c` the process's cartesian coordinate; each
sub-box has equal width `t`; the sub-boxes over all coordinates exactly
tile the global box; and with a single process (`split = 1`, `c = 0`) the
bounds equal the global box. -/
theorem claim8_distributed_tiling (mn mx : ℚ) (split c : ℕ) (hs : 0 < split)
    (hc : c < split) (hle : mn ≤ mx) :
    splitBounds1 (mn, mx) split c
      = (mn + (mx - mn) / (split : ℚ) * (c : ℚ),
         mn + (mx - mn) / (split : ℚ) * ((c : ℚ) + 1))
    ∧ (splitBounds1 (mn, mx) split c).2 - (splitBounds1 (mn, mx) split c).1
      = (mx - mn) / (split : ℚ)
    ∧ (⋃ k ∈ Finset.range split,
        Set.Icc (splitBounds1 (mn, mx) split k).1
          (splitBounds1 (mn, mx) split k).2)
      = Set.Icc mn mx
    ∧ (split = 1 → c = 0 → splitBounds1 (mn, mx) split c = (mn, mx)) := by
  have hne : (split : ℚ) ≠ 0 := Nat.cast_ne_zero.mpr (by omega)
  have ht : 0 ≤ (mx - mn) / (split : ℚ) :=
    div_nonneg (by linarith) (by positivity)
  refine ⟨rfl, ?_, ?_, ?_⟩
  · unfold splitBounds1
    ring
  · have hu := iUnion_Icc_pieces mn ((mx - mn) / (split : ℚ)) ht split hs
    have hcast : mn + (mx - mn) / (split : ℚ) * (split : ℚ) = mx := by
      rw [div_mul_cancel₀ _ hne]
      ring
    rw [show (⋃ k ∈ Finset.range split,
        Set.Icc (splitBounds1 (mn, mx) split k).1
          (splitBounds1 (mn, mx) split k).2)
      = (⋃ k ∈ Finset.range split,
        Set.Icc (mn + (mx - mn) / (split : ℚ) * (k : ℚ))
          (mn + (mx - mn) / (split : ℚ) * ((k : ℚ) + 1))) from rfl,
      hu, hcast]
  · intro h1 h2
    subst h1
    subst h2
    unfold splitBounds1
    norm_num

/-- C8 witness: the concrete split of `[0, 1]` into two halves, second
process. -/
theorem claim8_witness :
    (0 < 2 ∧ 1 < 2 ∧ (0 : ℚ) ≤ 1)
    ∧ splitBounds1 ((0 : ℚ), 1) 2 1 = (1 / 2, 1) := by
  refine ⟨⟨by norm_num, by norm_num, by norm_num⟩, ?_⟩
  have h := (claim8_distributed_tiling 0 1 2 1 (by norm_num) (by norm_num)
    (by norm_num)).1
  rw [h]
  norm_num

/-- C9: `get_box` infers the dimension solely from the present keys: 1 with
only `x` (a `z` entry without `y` is silently ignored and its bounds are
not returned), 2 when `y` is also present, 3 when both `y` and `z` are
present. -/
theorem claim9_get_box_dim (bx yb zb : ℚ × ℚ) (zopt : Option (ℚ × ℚ))
    (lab : Option LabelSpec) (els : List Element) :
    get_box ⟨some ⟨some bx, none, zopt, lab⟩, els⟩ = .ok (1, [bx])
    ∧ get_box ⟨some ⟨some bx, some yb, none, lab⟩, els⟩ = .ok (2, [bx, yb])
    ∧ get_box ⟨some ⟨some bx, some yb, some zb, lab⟩, els⟩
        = .ok (3, [bx, yb, zb]) :=
  ⟨rfl, rfl, rfl⟩

/-- The default geometry on `[0, 1]`: no `label` entry, no elements. -/
def ddUnit : GDico := ⟨some ⟨some (0, 1), none, none, none⟩, []⟩

/-- The geometry object it constructs. -/
def gDup : Geometry :=
  { dim := 1, bounds := [(0, 1)], box_label := [0, 0], list_elem := [] }

/-- C10 counterexample: for the default box on `[0, 1]` with no elements,
`list_of_labels` returns the box labels verbatim, `[0, 0]`, which is not
duplicate-free — refuting the claim that `list_of_labels` always returns
the duplicate-free union of the box edge labels with the element labels. -/
theorem claim10_counterexample :
    geometryInit [1] [0] ddUnit = .ok gDup
    ∧ list_of_labels gDup = [0, 0]
    ∧ ¬ (list_of_labels gDup).Nodup := by
  refine ⟨?_, rfl, by decide⟩
  simp [geometryInit, ddUnit, gDup, get_box, splitBounds, boxLabelField,
    box_label_of]
  norm_num [splitBounds1]

/-- C10 (amended): a missing `label` key labels all `2*dim` edges 0; a
single integer is replicated to all `2*dim` edges; a list is copied as
given without a length check; and `list_of_labels` folds the duplicate-free
sorted union of the box edge labels with the labels of every element — so
with at least one element the result is duplicate-free and in general it
contains exactly the box edge labels and the element labels, but with no
elements it returns the box edge label list verbatim (possibly with
duplicates). -/
theorem claim10_labels (dim : ℕ) (n : ℤ) (l : List ℤ) (g : Geometry) :
    box_label_of dim none = List.replicate (2 * dim) 0
    ∧ box_label_of dim (some (.int n)) = List.replicate (2 * dim) n
    ∧ box_label_of dim (some (.list l)) = l
    ∧ (g.list_elem ≠ [] → (list_of_labels g).Nodup)
    ∧ (∀ x : ℤ, x ∈ list_of_labels g ↔
        x ∈ g.box_label ∨ ∃ e ∈ g.list_elem, x ∈ e.label)
    ∧ (g.list_elem = [] → list_of_labels g = g.box_label) := by
  refine ⟨rfl, rfl, rfl, ?_, ?_, ?_⟩
  · intro hne
    rcases g with ⟨gd, gb, gbl, gels⟩
    cases gels with
    | nil => exact absurd rfl hne
    | cons e rest =>
      show (rest.foldl (fun L e => union1d L e.label) (union1d gbl e.label)).Nodup
      exact nodup_foldl_union1d rest _ (nodup_union1d _ _)
  · intro x
    exact mem_foldl_union1d g.list_elem g.box_label x
  · intro he
    simp [list_of_labels, he]

/-- A geometry with one element, used to instantiate C10. -/
def gW : Geometry :=
  { dim := 1, bounds := [(0, 1)], box_label := [0, 0],
    list_elem := [⟨[2, 0], false⟩] }

/-- C10 witness: with one element present the label list is
duplicate-free. -/
theorem claim10_witness : gW.list_elem ≠ [] ∧ (list_of_labels gW).Nodup :=
  ⟨by decide, (claim10_labels 1 0 [] gW).2.2.2.1 (by decide)⟩

/-- C1: in the moment-index-fastest layout, `one_time_step` performs
exactly `set_boundary_conditions` on the distribution buffer, then
`transport` on its result, then `f2m` recomputing `m` from the transported
distributions, then `relaxation` on `m`, then `m2f` reconstructing `F` from
`m`, in that order; `set_boundary_conditions` occurs exactly once in the
step's operation list and strictly before `transport`. -/
theorem claim1_step_order {β : Type} (ops : SchemeOps β) (s : SimState β)
    (h : s.nv_on_beg = true) :
    (one_time_step ops s).1.F
        = ops.m2f (ops.relaxation (ops.f2m (ops.transport
            (ops.set_boundary_conditions s.F s.m))))
    ∧ (one_time_step ops s).1.m
        = ops.relaxation (ops.f2m (ops.transport
            (ops.set_boundary_conditions s.F s.m)))
    ∧ (one_time_step ops s).2
        = [.setBC, .transport, .f2m, .relaxation, .m2f]
    ∧ (one_time_step ops s).2.count Ev.setBC = 1
    ∧ (one_time_step ops s).2.indexOf Ev.setBC
        < (one_time_step ops s).2.indexOf Ev.transport := by
  have h2 : (one_time_step ops s).2
      = [.setBC, .transport, .f2m, .relaxation, .m2f] := by
    simp [one_time_step, h]
  refine ⟨?_, ?_, h2, ?_, ?_⟩
  · simp [one_time_step, h]
  · simp [one_time_step, h]
  · rw [h2]
    decide
  · rw [h2]
    decide

/-- Abstract scheme operations over natural-number buffers used to
instantiate the simulation claims on concrete inputs. -/
def opsW : SchemeOps ℕ :=
  { dim := 1, la := 1, nv_on_beg := true, nvTot := 2
    set_boundary_conditions := fun F _ => F + 1
    transport := fun F => F + 2
    f2m := fun F => F + 3
    relaxation := fun m => m + 4
    m2f := fun m => m + 5
    equilibrium := fun m => m
    onetimestep := fun m F => (m, F) }

/-- A concrete simulation state in the moment-index-fastest layout. -/
def sW : SimState ℕ :=
  { t := 0, nt := 0, dt := 1, dim := 1, nv_on_beg := true,
    mshape := [2, 4], Fshape := [2, 4], m := 0, F := 0, Fold := 0 }

/-- C1 witness: the concrete step applies the five operations in order. -/
theorem claim1_witness :
    sW.nv_on_beg = true ∧ (one_time_step opsW sW).1.F = 15 := by
  refine ⟨rfl, ?_⟩
  rw [(claim1_step_order opsW sW rfl).1]
  rfl

/-- The concrete domain data matching `opsW`. -/
def domW : DomainData := { dim := 1, dx := 1, Na := [4] }

/-- The concrete simulation dictionary: moment initialization adding 7. -/
def dW : SimDico ℕ := { inittype := .moments, fill := fun b => b + 7 }

/-- The state produced by the concrete construction `simInit opsW domW dW`:
`dt = 1/1 = 1`, shape `[2, 4]`, moments filled to 7 and distributions
`m2f 7 = 12`. -/
def s1W : SimState ℕ :=
  { t := 0, nt := 0, dt := 1, dim := 1, nv_on_beg := true,
    mshape := [2, 4], Fshape := [2, 4], m := 7, F := 12, Fold := 0 }

theorem simInitW :
    simInit opsW domW dW 0 0 0
      = (.ok s1W,
         [.checkDim, .allocM, .allocF, .mkBoundary, .fillM, .equilibrium,
          .m2f]) := by
  simp [simInit, domW, opsW, dW, initialization, s1W]

/-- C3: at construction the time step is `dt = dx / la`, time starts at
`t = 0` with `nt = 0`; every `one_time_step` call adds exactly `dt` to `t`
and 1 to `nt`, so after `n` calls `t = n * dx / la`; `initialization` (and
the pure accessors) leave `t` and `nt` unchanged. -/
theorem claim3_time_accounting {β : Type} (ops : SchemeOps β)
    (dom : DomainData) (d : SimDico β) (m0 F0 Fold0 : β) (s1 : SimState β)
    (evs : List Ev) (h : simInit ops dom d m0 F0 Fold0 = (.ok s1, evs)) :
    s1.t = 0 ∧ s1.nt = 0 ∧ s1.dt = dom.dx / ops.la
    ∧ (∀ s : SimState β, (one_time_step ops s).1.t = s.t + s.dt
        ∧ (one_time_step ops s).1.nt = s.nt + 1)
    ∧ (∀ n : ℕ, (advance ops n s1).t = (n : ℚ) * (dom.dx / ops.la)
        ∧ (advance ops n s1).nt = n)
    ∧ (∀ s : SimState β, (initialization ops d s).1.t = s.t
        ∧ (initialization ops d s).1.nt = s.nt) := by
  obtain ⟨-, hs1⟩ := simInit_ok ops dom d m0 F0 Fold0 s1 evs h
  have hpres := initialization_preserves ops d
    { t := 0, nt := 0, dt := dom.dx / ops.la, dim := dom.dim
      nv_on_beg := ops.nv_on_beg
      mshape := if ops.nv_on_beg then ops.nvTot :: dom.Na.reverse
                else dom.Na.reverse ++ [ops.nvTot]
      Fshape := if ops.nv_on_beg then ops.nvTot :: dom.Na.reverse
                else dom.Na.reverse ++ [ops.nvTot]
      m := m0, F := F0, Fold := Fold0 }
  have ht : s1.t = 0 := by rw [hs1]; exact hpres.1
  have hnt : s1.nt = 0 := by rw [hs1]; exact hpres.2.1
  have hdt : s1.dt = dom.dx / ops.la := by rw [hs1]; exact hpres.2.2.1
  refine ⟨ht, hnt, hdt, ?_, ?_, ?_⟩
  · intro s
    exact ⟨(one_time_step_clock ops s).1, (one_time_step_clock ops s).2.1⟩
  · intro n
    have ha := advance_clock ops n s1
    constructor
    · rw [ha.1, ht, hdt]
      ring
    · rw [ha.2.1, hnt]
      omega
  · intro s
    exact ⟨(initialization_preserves ops d s).1,
      (initialization_preserves ops d s).2.1⟩

/-- C3 witness: the concrete simulation advances its clock by `n * dx/la`. -/
theorem claim3_witness :
    (advance opsW 3 s1W).t = (3 : ℚ) * (domW.dx / opsW.la) :=
  ((claim3_time_accounting opsW domW dW 0 0 0 s1W _ simInitW).2.2.2.2.1 3).1

/-- C5: if the domain's dimension differs from the scheme's, construction
fails with the fatal error, the constructor's operation list stops at the
dimension check, and in particular neither `_m` nor `_F` is allocated and
no initialization or step operation runs. -/
theorem claim5_dim_mismatch_fatal {β : Type} (ops : SchemeOps β)
    (dom : DomainData) (d : SimDico β) (m0 F0 Fold0 : β)
    (h : dom.dim ≠ ops.dim) :
    (simInit ops dom d m0 F0 Fold0).1
        = .error "the dimension of the domain and of the scheme are not the same"
    ∧ (simInit ops dom d m0 F0 Fold0).2 = [.checkDim]
    ∧ Ev.allocM ∉ (simInit ops dom d m0 F0 Fold0).2
    ∧ Ev.allocF ∉ (simInit ops dom d m0 F0 Fold0).2 := by
  refine ⟨?_, ?_, ?_, ?_⟩ <;> simp [simInit, h]

/-- A domain of mismatched dimension. -/
def domW2 : DomainData := { dim := 2, dx := 1, Na := [4, 4] }

/-- C5 witness: the concrete mismatched construction fails before any
allocation. -/
theorem claim5_witness :
    domW2.dim ≠ opsW.dim
    ∧ (simInit opsW domW2 dW 0 0 0).1
        = .error "the dimension of the domain and of the scheme are not the same"
    ∧ Ev.allocM ∉ (simInit opsW domW2 dW 0 0 0).2 := by
  have h := claim5_dim_mismatch_fatal opsW domW2 dW 0 0 0 (by decide)
  exact ⟨by decide, h.1, h.2.2.1⟩

/-- C7: `_m` and `_F` are allocated with the same shape, and
`initialization` establishes the change-of-basis relation before the first
step: with `inittype = 'moments'` the initializers fill `m`, `equilibrium`
rewrites it and `F` is computed from the result by `m2f`; otherwise the
initializers fill `F` and `m` is computed from it by `f2m`. -/
theorem claim7_shapes_and_init {β : Type} (ops : SchemeOps β)
    (dom : DomainData) (d : SimDico β) (m0 F0 Fold0 : β) (s1 : SimState β)
    (evs : List Ev) (h : simInit ops dom d m0 F0 Fold0 = (.ok s1, evs)) :
    s1.mshape = s1.Fshape
    ∧ (d.inittype = .moments →
        s1.m = ops.equilibrium (d.fill m0) ∧ s1.F = ops.m2f s1.m)
    ∧ (d.inittype = .distributions →
        s1.F = d.fill F0 ∧ s1.m = ops.f2m s1.F) := by
  obtain ⟨-, hs1⟩ := simInit_ok ops dom d m0 F0 Fold0 s1 evs h
  subst hs1
  refine ⟨?_, ?_, ?_⟩
  · have hp := initialization_preserves ops d
      { t := 0, nt := 0, dt := dom.dx / ops.la, dim := dom.dim
        nv_on_beg := ops.nv_on_beg
        mshape := if ops.nv_on_beg then ops.nvTot :: dom.Na.reverse
                  else dom.Na.reverse ++ [ops.nvTot]
        Fshape := if ops.nv_on_beg then ops.nvTot :: dom.Na.reverse
                  else dom.Na.reverse ++ [ops.nvTot]
        m := m0, F := F0, Fold := Fold0 }
    rw [hp.2.2.2.1, hp.2.2.2.2]
  · intro hi
    simp only [initialization, hi]
    split <;> exact ⟨rfl, rfl⟩
  · intro hi
    simp only [initialization, hi]
    split <;> exact ⟨rfl, rfl⟩

/-- C7 witness: the concrete moment-initialized construction. -/
theorem claim7_witness :
    s1W.mshape = s1W.Fshape ∧ s1W.m = opsW.equilibrium (dW.fill 0) := by
  have H := claim7_shapes_and_init opsW domW dW 0 0 0 s1W _ simInitW
  exact ⟨H.1, (H.2.1 rfl).1⟩

/-- C2: for every scheme configuration, boundary pass and initial state,
one step in the moment-index-fastest layout and one step in the
spatial-index-fastest layout produce equal distribution and moment values
up to the layout transposition; moreover the spatial path first copies `_F`
into `_Fold`, the fused kernel reads only the isolated pre-step values and
writes the secondary buffer, and after the swap `_F` names the newly
written buffer while `_Fold` names the buffer holding the pre-step
(post-boundary) distribution values. -/
theorem claim2_layout_equivalence {NV NX : ℕ} (sd : SchemeData NV)
    (bcM : Mom NV NX → Mom NV NX → Mom NV NX) (F0 m0 : Mom NV NX)
    (st : SimSpa NV NX) (hF : Fbuf st = transposeL F0)
    (hm : st.mS = transposeL m0) :
    Fbuf (one_time_step_spa sd bcM st)
        = transposeL (one_time_step_mom sd bcM F0 m0).1
    ∧ (one_time_step_spa sd bcM st).mS
        = transposeL (one_time_step_mom sd bcM F0 m0).2
    ∧ Foldbuf (one_time_step_spa sd bcM st) = transposeL (bcM F0 m0)
    ∧ (one_time_step_spa sd bcM st).fIsZero = !st.fIsZero := by
  have hbc : bcSpa bcM (Fbuf st) st.mS = transposeL (bcM F0 m0) := by
    rw [hF, hm]
    rfl
  obtain ⟨hA, hB, hC, hD⟩ := spa_step_structure sd bcM st
  refine ⟨?_, ?_, ?_, hD⟩
  · rw [hA, hbc, onetimestepS_transposeL]
    rfl
  · rw [hB, hbc, onetimestepS_transposeL]
    rfl
  · rw [hC, hbc]

/-- The trivial one-velocity, one-node scheme data. -/
def sdW : SchemeData 1 :=
  { M := fun _ _ => 1, Minv := fun _ _ => 1, s := fun _ => 0,
    eq := fun m => m, v := fun _ => 0 }

/-- A concrete spatial-layout state with both physical buffers zero. -/
def stW : SimSpa 1 1 :=
  { b0 := fun _ _ => 0, b1 := fun _ _ => 0, mS := fun _ _ => 0,
    fIsZero := true }

/-- C2 witness: the trivial concrete instance of the layout equivalence. -/
theorem claim2_witness :
    Fbuf (one_time_step_spa sdW (fun F _ => F) stW)
        = transposeL (one_time_step_mom sdW (fun F _ => F)
            (fun _ _ => 0) (fun _ _ => 0)).1
    ∧ (one_time_step_spa sdW (fun F _ => F) stW).fIsZero = !stW.fIsZero := by
  have H := claim2_layout_equivalence sdW (fun F _ => F)
    (fun _ _ => 0) (fun _ _ => 0) stW rfl rfl
  exact ⟨H.1, H.2.2.2⟩

/-- C4 (code bug): the integer-index accessor `m[i, j]` does return the
row of the packed buffer at combined index `nv_ptr[i] + j`, but the slice
branch with an unspecified stop does not cover all `nv[i]` velocity slots:
the default stop is `nv[i] - 1` and the Python slice excludes its stop, so
the last slot is dropped.  At `nv = [3]`, `m[0, :]` yields rows `[0, 1]`
instead of all three rows `[0, 1, 2]`. -/
theorem claim4_slice_accessor :
    (∀ (nv : List ℕ) (buf : ℕ → ℤ) (i j : ℕ),
        mGetItem nv buf i j = buf ((nv_ptr nv).getD i 0 + j))
    ∧ nv_ptr [3] = [0, 3]
    ∧ sliceRows [3] 0 ⟨none, none⟩ = [0, 1]
    ∧ sliceRows [3] 0 ⟨none, none⟩ ≠ List.range' 0 3
    ∧ mGetSlice [3] (fun r => r) 0 ⟨none, none⟩ = [0, 1] := by
  refine ⟨fun nv buf i j => rfl, rfl, rfl, ?_, rfl⟩
  decide

end PyLBM
